import Mathlib

/-!
Verification of the synchronization engine of `service_sync_files`.

The development shallowly embeds the engine in `src/sync_service.py` and the
remote-client wrapper in `src/cloud_storage.py`:

* `FileInfo` / `Snapshot` mirror the per-file dictionaries built by
  `FileSyncService.scan_local_folder` (a Python dict keyed by file name,
  modelled as an association list in insertion order).
* `scan_local_folder` mirrors the scanner, with the outcome of
  `Path.iterdir` abstracted by `ListDir` (successful listing,
  `PermissionError` — which the scanner catches — or any other OS error,
  which propagates).
* `sync_files_body` is the body of the `try` block of
  `FileSyncService.sync_files`; `sync_files` adds the surrounding
  `except Exception` handler that logs and swallows.  Per-action remote
  failures are abstracted by the oracle `CycleEnv.opFails`; the success of
  `cloud_storage.get_info` by `CycleEnv.getInfoOk`.
* `perform_initial_sync` mirrors `FileSyncService.perform_initial_sync`.
* `runCycles` mirrors the steady-state `while True` loop of
  `FileSyncService.run`: because `sync_files` catches every `Exception`,
  each iteration returns normally and the loop always proceeds.
* `YandexDiskStorage.delete` / `make_request` mirror
  `src/cloud_storage.py`, with the HTTP outcome abstracted by `ReqOutcome`.

Log output is modelled by `Event` lists: `Event.action a ok` records that
remote action `a` was attempted and succeeded (`ok = true`) or failed and was
logged (`ok = false`); `Event.scanPermissionLogged` records the scanner's
`PermissionError` log; `Event.cycleErrorLogged` records the catch-all
`logger.error` in `sync_files` / `perform_initial_sync`.
-/

/-- One entry of the dictionary built by `scan_local_folder`
(`name`, `hash`, `size`, `modified`; the redundant `path` field is the name
itself and is omitted). -/
structure FileInfo where
  name : String
  hash : String
  size : Nat
  modified : Int
deriving Repr, DecidableEq

/-- A scan result / the engine's cache: a Python dict `name -> FileInfo`,
modelled as an association list in insertion order (keys unique in any dict
the program builds). -/
abbrev Snapshot := List (String × FileInfo)

/-- Dictionary lookup (`dict.get(name)`). -/
def Snapshot.get : Snapshot → String → Option FileInfo
  | [], _ => none
  | p :: rest, n => if p.1 = n then some p.2 else Snapshot.get rest n

/-- One directory entry as observed by `Path.iterdir`, with the result of
`get_file_hash` precomputed: the source's `get_file_hash` returns the md5 hex
digest, or `""` when reading the file fails. -/
structure DirEntry where
  name : String
  isFile : Bool
  hash : String
  size : Nat
  modified : Int
deriving Repr, DecidableEq

/-- Outcome of iterating the watched directory: a successful listing, a
`PermissionError` (the only exception `scan_local_folder` catches), or any
other OS error (which escapes the scanner). -/
inductive ListDir
  | ok (items : List DirEntry)
  | permissionError
  | otherOSError
deriving Repr, DecidableEq

/-- A remote operation issued by the engine: `cloud_storage.load`,
`cloud_storage.reload`, or `cloud_storage.delete`. -/
inductive RemoteAction
  | upload (name : String)
  | overwrite (name : String)
  | delete (name : String)
deriving Repr, DecidableEq

/-- The file name a remote action refers to. -/
def RemoteAction.name : RemoteAction → String
  | .upload n => n
  | .overwrite n => n
  | .delete n => n

/-- Observable log events of one pass. -/
inductive Event
  | action (a : RemoteAction) (ok : Bool)
  | scanPermissionLogged
  | cycleErrorLogged
deriving Repr, DecidableEq

/-- Result of `get_file_hash` for an entry (already carried by the entry). -/
def get_file_hash (e : DirEntry) : String := e.hash

/-- The dictionary `scan_local_folder` builds from a successful listing:
regular files whose hash computation succeeded (`if file_hash:` keeps only a
non-empty digest). -/
def buildSnapshot (items : List DirEntry) : Snapshot :=
  items.filterMap fun e =>
    if e.isFile then
      if get_file_hash e ≠ "" then
        some (e.name,
          { name := e.name, hash := get_file_hash e, size := e.size,
            modified := e.modified })
      else none
    else none

/-- Embeds `FileSyncService.scan_local_folder`: on a successful listing it returns
the built dictionary; on `PermissionError` it logs and returns the (empty)
dictionary accumulated so far; any other OS error propagates
(`Except.error`). -/
def scan_local_folder : ListDir → Except Unit (Snapshot × List Event)
  | .ok items => .ok (buildSnapshot items, [])
  | .permissionError => .ok ([], [.scanPermissionLogged])
  | .otherOSError => .error ()

/-- The first loop of `sync_files`: for each scanned file, `upload` when it
is absent from the cache, `overwrite` when the cached hash differs, nothing
otherwise. -/
def newAndChangedActions (cache current : Snapshot) : List RemoteAction :=
  current.filterMap fun p =>
    match Snapshot.get cache p.1 with
    | none => some (.upload p.1)
    | some cached =>
        if cached.hash ≠ p.2.hash then some (.overwrite p.1) else none

/-- The second loop of `sync_files`: `delete` for each cached name absent
from the current scan. -/
def deletedActions (cache current : Snapshot) : List RemoteAction :=
  cache.filterMap fun p =>
    if Snapshot.get current p.1 = none then some (.delete p.1) else none

/-- All remote actions one steady-state comparison issues, in program
order. -/
def diffActions (cache current : Snapshot) : List RemoteAction :=
  newAndChangedActions cache current ++ deletedActions cache current

/-- The environment one cycle runs in: the directory-listing outcome,
whether `cloud_storage.get_info` succeeds, and which remote actions raise
when executed. -/
structure CycleEnv where
  listDir : ListDir
  getInfoOk : Bool
  opFails : RemoteAction → Bool

/-- Executing a list of actions one at a time: each is attempted exactly
once; a failure is caught per action and logged (`ok = false`). -/
def runActions (opFails : RemoteAction → Bool) (acts : List RemoteAction) :
    List Event :=
  acts.map fun a => .action a (!opFails a)

/-- The exceptions that can escape the body of `sync_files`: an OS error
from the scanner other than `PermissionError`, or any exception from
`cloud_storage.get_info` (which wraps everything in `RuntimeError`). -/
inductive SyncErr
  | scanOSError
  | getInfoError
deriving Repr, DecidableEq

/-- Result of one pass: the new value of `local_files_cache` and the log
events emitted. -/
structure CycleOutcome where
  cache : Snapshot
  events : List Event
deriving Repr, DecidableEq

/-- The body of the `try` block of `FileSyncService.sync_files`: scan, then
`get_info`, then the two diff loops, then replace the cache with the scan.
An escaping exception carries the events already emitted. -/
def sync_files_body (cache : Snapshot) (env : CycleEnv) :
    Except (SyncErr × List Event) (Snapshot × List Event) :=
  match scan_local_folder env.listDir with
  | .error _ => .error (.scanOSError, [])
  | .ok (current, scanEvents) =>
      if env.getInfoOk then
        .ok (current, scanEvents ++ runActions env.opFails (diffActions cache current))
      else .error (.getInfoError, scanEvents)

/-- Embeds `FileSyncService.sync_files`: the body wrapped in `except Exception`,
which logs the error and swallows it, leaving the cache unchanged. -/
def sync_files (cache : Snapshot) (env : CycleEnv) : CycleOutcome :=
  match sync_files_body cache env with
  | .ok (c, evs) => ⟨c, evs⟩
  | .error (_, evs) => ⟨cache, evs ++ [.cycleErrorLogged]⟩

/-- Embeds `FileSyncService.perform_initial_sync`: `get_info`, then scan, then
upload every scanned file (continuing past failures), then set the cache to
the scan; any escaping exception is caught, logged and swallowed. -/
def perform_initial_sync (cache : Snapshot) (env : CycleEnv) : CycleOutcome :=
  if env.getInfoOk then
    match scan_local_folder env.listDir with
    | .error _ => ⟨cache, [.cycleErrorLogged]⟩
    | .ok (local_files, scanEvents) =>
        ⟨local_files,
         scanEvents ++ runActions env.opFails (local_files.map fun p => .upload p.1)⟩
  else ⟨cache, [.cycleErrorLogged]⟩

/-- The cache as set in `FileSyncService.__init__`: the empty dict. -/
def FileSyncService.initCache : Snapshot := []

/-- The steady-state `while True` loop of `FileSyncService.run`, run for a
finite prefix of cycles: each iteration sleeps, then calls `sync_files`.
Because `sync_files` catches every `Exception`, each iteration returns
normally and the next one always runs. Returns the final cache and the
events of each cycle. -/
def runCycles : Snapshot → List CycleEnv → Snapshot × List (List Event)
  | cache, [] => (cache, [])
  | cache, env :: rest =>
      ((runCycles (sync_files cache env).cache rest).1,
       (sync_files cache env).events :: (runCycles (sync_files cache env).cache rest).2)

/-- The actions among a list of actions that refer to file `n`. -/
def actionsFor (n : String) (acts : List RemoteAction) : List RemoteAction :=
  acts.filter fun a => RemoteAction.name a == n

/-- The remote actions attempted during a pass, read off its event log. -/
def issuedActions (evs : List Event) : List RemoteAction :=
  evs.filterMap fun e =>
    match e with
    | .action a _ => some a
    | _ => none

/-!  The remote-client wrapper (`src/cloud_storage.py`). -/

/-- Outcome of one HTTP request issued by `_make_request`. -/
inductive ReqOutcome
  | ok
  | connectionFailed
  | timedOut
  | http (status : Nat)
  | otherRequestError
deriving Repr, DecidableEq

/-- The Python exception classes `_make_request` translates failures
into. -/
inductive ReqError
  | connectionError
  | timeoutError
  | valueError
  | fileNotFoundError
  | runtimeError
deriving Repr, DecidableEq

/-- Embeds `YandexDiskStorage._make_request`: maps transport failures and HTTP
status codes to typed exceptions (401 to `ValueError`, 404 to
`FileNotFoundError`, any other HTTP error or request failure to
`RuntimeError`). -/
def make_request : ReqOutcome → Except ReqError Unit
  | .ok => .ok ()
  | .connectionFailed => .error .connectionError
  | .timedOut => .error .timeoutError
  | .http status =>
      if status = 401 then .error .valueError
      else if status = 404 then .error .fileNotFoundError
      else .error .runtimeError
  | .otherRequestError => .error .runtimeError

/-- Embeds `YandexDiskStorage.delete`: issues the DELETE request; returns `True`
on success, returns `True` when the request raised `FileNotFoundError`
(file already gone), and wraps any other exception in a raised
`RuntimeError`. The file name does not influence control flow. -/
def YandexDiskStorage.delete (filename : String) (req : ReqOutcome) :
    Except ReqError Bool :=
  match make_request req with
  | .ok _ => .ok true
  | .error .fileNotFoundError => .ok true
  | .error _ => .error .runtimeError

/-!  Basic lemmas about lookup and the diff. -/

theorem Snapshot.get_eq_none (n : String) :
    ∀ s : Snapshot, n ∉ s.map Prod.fst → Snapshot.get s n = none := by
  intro s
  induction s with
  | nil => intro _; rfl
  | cons p rest ih =>
      intro h
      simp only [List.map_cons, List.mem_cons] at h
      push_neg at h
      simp only [Snapshot.get]
      rw [if_neg (fun hpn => h.1 hpn.symm), ih h.2]

theorem Snapshot.get_of_mem :
    ∀ s : Snapshot, (s.map Prod.fst).Nodup → ∀ p : String × FileInfo,
      p ∈ s → Snapshot.get s p.1 = some p.2 := by
  intro s
  induction s with
  | nil => intro _ p hp; cases hp
  | cons q rest ih =>
      intro hnd p hp
      simp only [List.map_cons, List.nodup_cons] at hnd
      rcases List.mem_cons.mp hp with h | h
      · subst h
        simp [Snapshot.get]
      · have hne : q.1 ≠ p.1 := by
          intro he
          exact hnd.1 (he ▸ List.mem_map_of_mem Prod.fst h)
        simp only [Snapshot.get]
        rw [if_neg hne]
        exact ih hnd.2 p h

theorem actionsFor_filterMap (n : String)
    (f : String × FileInfo → Option RemoteAction)
    (hf : ∀ p a, f p = some a → RemoteAction.name a = p.1) :
    ∀ s : Snapshot, (s.map Prod.fst).Nodup →
      actionsFor n (s.filterMap f) =
        ((Snapshot.get s n).bind fun v => f (n, v)).toList := by
  intro s
  induction s with
  | nil => intro _; rfl
  | cons p rest ih =>
      intro hnd
      simp only [List.map_cons, List.nodup_cons] at hnd
      obtain ⟨hnotmem, hndrest⟩ := hnd
      by_cases hpn : p.1 = n
      · have hrest : actionsFor n (rest.filterMap f) = [] := by
          rw [ih hndrest, Snapshot.get_eq_none n rest (hpn ▸ hnotmem)]
          rfl
        have hp2 : (n, p.2) = p := by
          obtain ⟨p1, p2⟩ := p
          simp only at hpn
          rw [hpn]
        have hget : Snapshot.get (p :: rest) n = some p.2 := by
          simp [Snapshot.get, hpn]
        rw [hget]
        cases hfp : f p with
        | none =>
            rw [List.filterMap_cons_none hfp]
            rw [hrest]
            simp [hp2, hfp]
        | some a =>
            rw [List.filterMap_cons_some hfp]
            have hname : RemoteAction.name a = n := by
              rw [hf p a hfp, hpn]
            simp only [actionsFor] at hrest ⊢
            rw [List.filter_cons_of_pos (by simp [hname]), hrest]
            simp [hp2, hfp]
      · have hget : Snapshot.get (p :: rest) n = Snapshot.get rest n := by
          simp [Snapshot.get, hpn]
        rw [hget]
        cases hfp : f p with
        | none =>
            rw [List.filterMap_cons_none hfp]
            exact ih hndrest
        | some a =>
            rw [List.filterMap_cons_some hfp]
            have hname : RemoteAction.name a = p.1 := hf p a hfp
            simp only [actionsFor] at ih ⊢
            rw [List.filter_cons_of_neg (by simp [hname, hpn])]
            exact ih hndrest

theorem newChanged_name (cache : Snapshot) :
    ∀ (p : String × FileInfo) (a : RemoteAction),
      (match Snapshot.get cache p.1 with
       | none => some (RemoteAction.upload p.1)
       | some cached =>
           if cached.hash ≠ p.2.hash then some (RemoteAction.overwrite p.1)
           else none) = some a →
      RemoteAction.name a = p.1 := by
  intro p a hpa
  cases hg : Snapshot.get cache p.1 with
  | none => rw [hg] at hpa; cases hpa; rfl
  | some cached =>
      rw [hg] at hpa
      by_cases hh : cached.hash = p.2.hash
      · simp [hh] at hpa
      · simp [hh] at hpa
        subst hpa
        rfl

theorem deleted_name (current : Snapshot) :
    ∀ (p : String × FileInfo) (a : RemoteAction),
      (if Snapshot.get current p.1 = none then some (RemoteAction.delete p.1)
       else none) = some a →
      RemoteAction.name a = p.1 := by
  intro p a hpa
  by_cases hg : Snapshot.get current p.1 = none
  · simp [hg] at hpa
    subst hpa
    rfl
  · simp [hg] at hpa

theorem actionsFor_newAndChanged (n : String) (cache current : Snapshot)
    (hnd : (current.map Prod.fst).Nodup) :
    actionsFor n (newAndChangedActions cache current) =
      ((Snapshot.get current n).bind fun info =>
        match Snapshot.get cache n with
        | none => some (RemoteAction.upload n)
        | some cached =>
            if cached.hash ≠ info.hash then some (RemoteAction.overwrite n)
            else none).toList :=
  actionsFor_filterMap n _ (newChanged_name cache) current hnd

theorem actionsFor_deleted (n : String) (cache current : Snapshot)
    (hnd : (cache.map Prod.fst).Nodup) :
    actionsFor n (deletedActions cache current) =
      ((Snapshot.get cache n).bind fun _ =>
        if Snapshot.get current n = none then some (RemoteAction.delete n)
        else none).toList :=
  actionsFor_filterMap n _ (deleted_name current) cache hnd

theorem actionsFor_append (n : String) (l1 l2 : List RemoteAction) :
    actionsFor n (l1 ++ l2) = actionsFor n l1 ++ actionsFor n l2 := by
  simp [actionsFor, List.filter_append]

theorem issuedActions_append (l1 l2 : List Event) :
    issuedActions (l1 ++ l2) = issuedActions l1 ++ issuedActions l2 := by
  simp [issuedActions, List.filterMap_append]

theorem issuedActions_runActions (opFails : RemoteAction → Bool)
    (acts : List RemoteAction) :
    issuedActions (runActions opFails acts) = acts := by
  induction acts with
  | nil => rfl
  | cons a rest ih =>
      simp only [issuedActions, runActions, List.map_cons, List.filterMap_cons] at ih ⊢
      rw [ih]

theorem scan_events_no_actions (ld : ListDir) (snap : Snapshot)
    (evs : List Event)
    (h : scan_local_folder ld = Except.ok (snap, evs)) :
    issuedActions evs = [] := by
  cases ld with
  | ok items =>
      simp only [scan_local_folder, Except.ok.injEq, Prod.mk.injEq] at h
      rw [← h.2]
      rfl
  | permissionError =>
      simp only [scan_local_folder, Except.ok.injEq, Prod.mk.injEq] at h
      rw [← h.2]
      rfl
  | otherOSError => simp [scan_local_folder] at h

theorem sync_files_ok (cache current : Snapshot) (env : CycleEnv)
    (evs : List Event)
    (hscan : scan_local_folder env.listDir = Except.ok (current, evs))
    (hok : env.getInfoOk = true) :
    sync_files cache env =
      ⟨current, evs ++ runActions env.opFails (diffActions cache current)⟩ := by
  unfold sync_files sync_files_body
  rw [hscan, hok]
  rfl

theorem newAndChanged_self (s : Snapshot) (hnd : (s.map Prod.fst).Nodup) :
    newAndChangedActions s s = [] := by
  unfold newAndChangedActions
  rw [List.filterMap_eq_nil_iff]
  intro p hp
  rw [Snapshot.get_of_mem s hnd p hp]
  simp

theorem deleted_self (s : Snapshot) (hnd : (s.map Prod.fst).Nodup) :
    deletedActions s s = [] := by
  unfold deletedActions
  rw [List.filterMap_eq_nil_iff]
  intro p hp
  rw [Snapshot.get_of_mem s hnd p hp]
  simp

theorem diffActions_self (s : Snapshot) (hnd : (s.map Prod.fst).Nodup) :
    diffActions s s = [] := by
  unfold diffActions
  rw [newAndChanged_self s hnd, deleted_self s hnd]
  rfl

/-- C1: Steady-state sync classifies every file by comparing the fresh scan
to the cache and issues exactly one matching remote action per file: the
actions attempted by `sync_files` are exactly `diffActions cache current`,
and for each name: present in the scan but not the cache — exactly one
upload; present in both with differing fingerprints — exactly one
overwrite; present in both with the same fingerprint (sizes and modified
times unconstrained) — no action; present in the cache but not the scan —
exactly one delete. -/
theorem C1_classification (cache current : Snapshot) (env : CycleEnv)
    (evs : List Event) (n : String)
    (hscan : scan_local_folder env.listDir = Except.ok (current, evs))
    (hok : env.getInfoOk = true)
    (hndCache : (cache.map Prod.fst).Nodup)
    (hndCur : (current.map Prod.fst).Nodup) :
    issuedActions (sync_files cache env).events = diffActions cache current ∧
    (∀ info, Snapshot.get current n = some info →
        Snapshot.get cache n = none →
        actionsFor n (diffActions cache current) = [RemoteAction.upload n]) ∧
    (∀ info cached, Snapshot.get current n = some info →
        Snapshot.get cache n = some cached → cached.hash ≠ info.hash →
        actionsFor n (diffActions cache current) = [RemoteAction.overwrite n]) ∧
    (∀ info cached, Snapshot.get current n = some info →
        Snapshot.get cache n = some cached → cached.hash = info.hash →
        actionsFor n (diffActions cache current) = []) ∧
    (∀ cached, Snapshot.get cache n = some cached →
        Snapshot.get current n = none →
        actionsFor n (diffActions cache current) = [RemoteAction.delete n]) := by
  have hdiff : ∀ m : String, actionsFor m (diffActions cache current) =
      actionsFor m (newAndChangedActions cache current) ++
      actionsFor m (deletedActions cache current) := by
    intro m
    unfold diffActions
    exact actionsFor_append m _ _
  refine ⟨?_, ?_, ?_, ?_, ?_⟩
  · rw [sync_files_ok cache current env evs hscan hok]
    rw [issuedActions_append, scan_events_no_actions _ _ _ hscan,
      issuedActions_runActions]
    rfl
  · intro info hcur hcache
    rw [hdiff n, actionsFor_newAndChanged n cache current hndCur,
      actionsFor_deleted n cache current hndCache, hcur, hcache]
    rfl
  · intro info cached hcur hcache hne
    rw [hdiff n, actionsFor_newAndChanged n cache current hndCur,
      actionsFor_deleted n cache current hndCache, hcur, hcache]
    simp [hne, hcur]
  · intro info cached hcur hcache heq
    rw [hdiff n, actionsFor_newAndChanged n cache current hndCur,
      actionsFor_deleted n cache current hndCache, hcur, hcache]
    simp [heq, hcur]
  · intro cached hcache hcur
    rw [hdiff n, actionsFor_newAndChanged n cache current hndCur,
      actionsFor_deleted n cache current hndCache, hcur, hcache]
    rfl

theorem sync_files_getInfoFail (cache : Snapshot) (env : CycleEnv)
    (snap : Snapshot) (evs : List Event)
    (hscan : scan_local_folder env.listDir = Except.ok (snap, evs))
    (hok : env.getInfoOk = false) :
    sync_files cache env = ⟨cache, evs ++ [Event.cycleErrorLogged]⟩ := by
  unfold sync_files sync_files_body
  rw [hscan, hok]
  rfl

theorem sync_files_scanError (cache : Snapshot) (env : CycleEnv)
    (hscan : scan_local_folder env.listDir = Except.error ()) :
    sync_files cache env = ⟨cache, [Event.cycleErrorLogged]⟩ := by
  unfold sync_files sync_files_body
  rw [hscan]
  rfl

theorem runCycles_cons (cache : Snapshot) (env : CycleEnv)
    (rest : List CycleEnv) :
    runCycles cache (env :: rest) =
      ((runCycles (sync_files cache env).cache rest).1,
       (sync_files cache env).events ::
         (runCycles (sync_files cache env).cache rest).2) := rfl

theorem upload_event_mem (cache current : Snapshot) (env : CycleEnv)
    (evs : List Event) (n : String) (info : FileInfo)
    (hscan : scan_local_folder env.listDir = Except.ok (current, evs))
    (hok : env.getInfoOk = true)
    (hndCache : (cache.map Prod.fst).Nodup)
    (hndCur : (current.map Prod.fst).Nodup)
    (hc : Snapshot.get cache n = none)
    (hs : Snapshot.get current n = some info) :
    Event.action (RemoteAction.upload n) (!env.opFails (RemoteAction.upload n)) ∈
      (sync_files cache env).events := by
  have hact : actionsFor n (diffActions cache current) =
      [RemoteAction.upload n] := by
    unfold diffActions
    rw [actionsFor_append, actionsFor_newAndChanged n cache current hndCur,
      actionsFor_deleted n cache current hndCache, hs, hc]
    rfl
  have hmem : RemoteAction.upload n ∈ diffActions cache current := by
    have hmemf : RemoteAction.upload n ∈
        actionsFor n (diffActions cache current) := by
      rw [hact]
      exact List.mem_singleton.mpr rfl
    exact List.mem_of_mem_filter hmemf
  rw [sync_files_ok cache current env evs hscan hok]
  show Event.action (RemoteAction.upload n) (!env.opFails (RemoteAction.upload n)) ∈
    evs ++ runActions env.opFails (diffActions cache current)
  apply List.mem_append_right
  exact List.mem_map_of_mem (fun a => Event.action a (!env.opFails a)) hmem

/-!  Concrete data used by the witnesses. -/

/-- Example directory listing: `a.txt` (changed content), `b.txt` (new),
`c.txt` (same hash as cached, different size and modified time), a
subdirectory, and a file whose hash computation failed. -/
def itemsW : List DirEntry :=
  [{ name := "a.txt", isFile := true, hash := "h2", size := 3, modified := 20 },
   { name := "b.txt", isFile := true, hash := "hb", size := 1, modified := 21 },
   { name := "c.txt", isFile := true, hash := "h3", size := 9, modified := 22 },
   { name := "sub", isFile := false, hash := "x", size := 0, modified := 0 },
   { name := "bad.bin", isFile := true, hash := "", size := 7, modified := 5 }]

/-- Example cache: `a.txt` with the old hash, `c.txt` unchanged, `d.txt`
meanwhile removed locally. -/
def cacheW : Snapshot :=
  [("a.txt", { name := "a.txt", hash := "h1", size := 3, modified := 10 }),
   ("c.txt", { name := "c.txt", hash := "h3", size := 5, modified := 11 }),
   ("d.txt", { name := "d.txt", hash := "h4", size := 2, modified := 12 })]

/-- The snapshot scanned from `itemsW`. -/
def curW : Snapshot := buildSnapshot itemsW

/-- A cycle environment where everything succeeds. -/
def envW : CycleEnv :=
  { listDir := ListDir.ok itemsW, getInfoOk := true, opFails := fun _ => false }

/-- A cycle environment where the upload of `b.txt` fails. -/
def envFailB : CycleEnv :=
  { listDir := ListDir.ok itemsW, getInfoOk := true,
    opFails := fun a => a == RemoteAction.upload "b.txt" }

/-- A cycle environment where the upload of `a.txt` fails. -/
def envFailA : CycleEnv :=
  { listDir := ListDir.ok itemsW, getInfoOk := true,
    opFails := fun a => a == RemoteAction.upload "a.txt" }

/-- A cycle environment whose directory listing hits `PermissionError`. -/
def envPerm : CycleEnv :=
  { listDir := ListDir.permissionError, getInfoOk := true,
    opFails := fun _ => false }

/-- A cycle environment where `get_info` raises. -/
def envInfoFail : CycleEnv :=
  { listDir := ListDir.ok [{ name := "a.txt", isFile := true, hash := "h1",
                             size := 3, modified := 10 }],
    getInfoOk := false, opFails := fun _ => false }

/-- A cycle environment scanning a directory holding only `b.txt`. -/
def envOnlyB : CycleEnv :=
  { listDir := ListDir.ok [{ name := "b.txt", isFile := true, hash := "hb",
                             size := 1, modified := 21 }],
    getInfoOk := true, opFails := fun _ => false }

/-- A cycle environment whose directory listing hits an OS error other than
`PermissionError`. -/
def envOSErr : CycleEnv :=
  { listDir := ListDir.otherOSError, getInfoOk := true,
    opFails := fun _ => false }

/-- The cache `[a.txt]` used by the run-loop examples. -/
def cacheA : Snapshot :=
  [("a.txt", { name := "a.txt", hash := "h1", size := 3, modified := 10 })]

/-- Witness for C1 at the concrete data: the pass issues exactly the diff
actions, and `a.txt` gets one overwrite, `b.txt` one upload, `c.txt`
nothing (same hash, different size and time), `d.txt` one delete. -/
theorem C1_classification_witness :
    issuedActions (sync_files cacheW envW).events = diffActions cacheW curW ∧
    actionsFor "a.txt" (diffActions cacheW curW) =
      [RemoteAction.overwrite "a.txt"] ∧
    actionsFor "b.txt" (diffActions cacheW curW) =
      [RemoteAction.upload "b.txt"] ∧
    actionsFor "c.txt" (diffActions cacheW curW) = [] ∧
    actionsFor "d.txt" (diffActions cacheW curW) =
      [RemoteAction.delete "d.txt"] := by
  have hA := C1_classification cacheW curW envW [] "a.txt" rfl rfl
    (by decide) (by decide)
  have hB := C1_classification cacheW curW envW [] "b.txt" rfl rfl
    (by decide) (by decide)
  have hC := C1_classification cacheW curW envW [] "c.txt" rfl rfl
    (by decide) (by decide)
  have hD := C1_classification cacheW curW envW [] "d.txt" rfl rfl
    (by decide) (by decide)
  refine ⟨hA.1, ?_, ?_, ?_, ?_⟩
  · exact hA.2.2.1
      { name := "a.txt", hash := "h2", size := 3, modified := 20 }
      { name := "a.txt", hash := "h1", size := 3, modified := 10 }
      (by decide) (by decide) (by decide)
  · exact hB.2.1
      { name := "b.txt", hash := "hb", size := 1, modified := 21 }
      (by decide) (by decide)
  · exact hC.2.2.2.1
      { name := "c.txt", hash := "h3", size := 9, modified := 22 }
      { name := "c.txt", hash := "h3", size := 5, modified := 11 }
      (by decide) (by decide) (by decide)
  · exact hD.2.2.2.2
      { name := "d.txt", hash := "h4", size := 2, modified := 12 }
      (by decide) (by decide)

/-- C2: after a comparison pass completes (scan returned and `get_info`
succeeded), the cache exactly equals the just-scanned snapshot, for every
per-file failure oracle (the env's `opFails` is arbitrary), in both the
steady-state pass and the initial sync; the cache is replaced wholesale
(it *is* the new snapshot), and is empty at construction. -/
theorem C2_cache_wholesale (cache current : Snapshot) (env : CycleEnv)
    (evs : List Event)
    (hscan : scan_local_folder env.listDir = Except.ok (current, evs))
    (hok : env.getInfoOk = true) :
    (sync_files cache env).cache = current ∧
    (perform_initial_sync cache env).cache = current ∧
    FileSyncService.initCache = [] := by
  refine ⟨?_, ?_, rfl⟩
  · rw [sync_files_ok cache current env evs hscan hok]
  · unfold perform_initial_sync
    rw [hok, hscan]
    rfl

/-- Witness for C2 at the concrete data: the cache after the pass is the
scanned snapshot even though `envFailB` makes the upload of `b.txt`
fail. -/
theorem C2_cache_wholesale_witness :
    (sync_files cacheW envFailB).cache = curW ∧
    (perform_initial_sync cacheW envFailB).cache = curW ∧
    FileSyncService.initCache = [] :=
  C2_cache_wholesale cacheW curW envFailB [] rfl rfl

/-- C5: running steady-state sync twice in a row with no filesystem change
in between (the second listing equals the first) issues zero remote
actions on the second run. -/
theorem C5_idempotent (cache current : Snapshot) (env1 env2 : CycleEnv)
    (evs : List Event)
    (hfs : env2.listDir = env1.listDir)
    (hscan : scan_local_folder env1.listDir = Except.ok (current, evs))
    (h1 : env1.getInfoOk = true) (h2 : env2.getInfoOk = true)
    (hnd : (current.map Prod.fst).Nodup) :
    issuedActions (sync_files (sync_files cache env1).cache env2).events = [] := by
  have hscan2 : scan_local_folder env2.listDir = Except.ok (current, evs) := by
    rw [hfs]
    exact hscan
  have e1 : (sync_files cache env1).cache = current := by
    rw [sync_files_ok cache current env1 evs hscan h1]
  rw [e1, sync_files_ok current current env2 evs hscan2 h2]
  show issuedActions (evs ++ runActions env2.opFails (diffActions current current)) = []
  rw [issuedActions_append, scan_events_no_actions _ _ _ hscan2,
    diffActions_self current hnd]
  rfl

/-- Witness for C5 at the concrete data. -/
theorem C5_idempotent_witness :
    issuedActions (sync_files (sync_files cacheW envW).cache envW).events = [] :=
  C5_idempotent cacheW curW envW envW [] rfl rfl rfl rfl (by decide)

theorem Snapshot.mem_of_get (s : Snapshot) (n : String) (v : FileInfo)
    (h : Snapshot.get s n = some v) : (n, v) ∈ s := by
  induction s with
  | nil => simp [Snapshot.get] at h
  | cons p rest ih =>
      simp only [Snapshot.get] at h
      by_cases hpn : p.1 = n
      · rw [if_pos hpn] at h
        injection h with h2
        subst hpn
        subst h2
        exact List.mem_cons_self p rest
      · rw [if_neg hpn] at h
        exact List.mem_cons_of_mem p (ih h)

theorem action_event_mem (cache current : Snapshot) (env : CycleEnv)
    (evs : List Event) (a : RemoteAction)
    (hscan : scan_local_folder env.listDir = Except.ok (current, evs))
    (hok : env.getInfoOk = true)
    (hmem : a ∈ diffActions cache current) :
    Event.action a (!env.opFails a) ∈ (sync_files cache env).events := by
  rw [sync_files_ok cache current env evs hscan hok]
  show Event.action a (!env.opFails a) ∈
    evs ++ runActions env.opFails (diffActions cache current)
  apply List.mem_append_right
  exact List.mem_map_of_mem (fun x => Event.action x (!env.opFails x)) hmem

theorem perform_initial_sync_ok (cache current : Snapshot) (env : CycleEnv)
    (evs : List Event)
    (hscan : scan_local_folder env.listDir = Except.ok (current, evs))
    (hok : env.getInfoOk = true) :
    perform_initial_sync cache env =
      ⟨current,
       evs ++ runActions env.opFails
         (current.map fun p => RemoteAction.upload p.1)⟩ := by
  unfold perform_initial_sync
  rw [hok, hscan]
  rfl

/-- C4: a file whose upload or overwrite fails during a pass — steady-state
or initial — is still folded into the cache with its scanned fingerprint,
so on a later cycle scanning the same content for that name no action is
issued and the upload is not retried. `a` is whichever action the
steady-state diff issued for `n` (an upload for a new file, an overwrite
for a changed one) and it fails; the failed attempts are logged; in both
passes the name enters the cache with the scanned `info` and a subsequent
scan with an equal hash yields no action for it. -/
theorem C4_failed_upload_not_retried
    (cache current current2 : Snapshot) (env : CycleEnv) (evs : List Event)
    (n : String) (info info2 : FileInfo) (a : RemoteAction)
    (hscan : scan_local_folder env.listDir = Except.ok (current, evs))
    (hok : env.getInfoOk = true)
    (hcur : Snapshot.get current n = some info)
    (hndCur : (current.map Prod.fst).Nodup)
    (hndCur2 : (current2.map Prod.fst).Nodup)
    (hcur2 : Snapshot.get current2 n = some info2)
    (hhash : info2.hash = info.hash)
    (ha : a ∈ actionsFor n (diffActions cache current))
    (hfail : env.opFails a = true)
    (hfailUp : env.opFails (RemoteAction.upload n) = true) :
    Event.action a false ∈ (sync_files cache env).events ∧
    Snapshot.get (sync_files cache env).cache n = some info ∧
    actionsFor n (diffActions (sync_files cache env).cache current2) = [] ∧
    Event.action (RemoteAction.upload n) false ∈
      (perform_initial_sync cache env).events ∧
    Snapshot.get (perform_initial_sync cache env).cache n = some info ∧
    actionsFor n (diffActions (perform_initial_sync cache env).cache current2) = [] := by
  have e1 : (sync_files cache env).cache = current := by
    rw [sync_files_ok cache current env evs hscan hok]
  have e2 : (perform_initial_sync cache env).cache = current := by
    rw [perform_initial_sync_ok cache current env evs hscan hok]
  have hnr : actionsFor n (diffActions current current2) = [] := by
    unfold diffActions
    rw [actionsFor_append, actionsFor_newAndChanged n current current2 hndCur2,
      actionsFor_deleted n current current2 hndCur, hcur2, hcur]
    simp [hhash]
  refine ⟨?_, ?_, ?_, ?_, ?_, ?_⟩
  · have h := action_event_mem cache current env evs a hscan hok
      (List.mem_of_mem_filter ha)
    rw [hfail] at h
    exact h
  · rw [e1]
    exact hcur
  · rw [e1]
    exact hnr
  · have hup : RemoteAction.upload n ∈
        current.map (fun p => RemoteAction.upload p.1) :=
      List.mem_map_of_mem (fun p => RemoteAction.upload p.1)
        (Snapshot.mem_of_get current n info hcur)
    rw [perform_initial_sync_ok cache current env evs hscan hok]
    show Event.action (RemoteAction.upload n) false ∈
      evs ++ runActions env.opFails (current.map fun p => RemoteAction.upload p.1)
    apply List.mem_append_right
    have h := List.mem_map_of_mem
      (fun x => Event.action x (!env.opFails x)) hup
    simpa [runActions, hfailUp] using h
  · rw [e2]
    exact hcur
  · rw [e2]
    exact hnr

/-- A cycle environment where every remote action fails. -/
def envFailAll : CycleEnv :=
  { listDir := ListDir.ok itemsW, getInfoOk := true, opFails := fun _ => true }

/-- Witness for C4 at the concrete data: under `envFailAll` the overwrite
of the changed file `a.txt` fails in the steady-state pass and its upload
fails in the initial sync, yet in both passes `a.txt` enters the cache
with the scanned hash and a second identical scan yields no action for
it. -/
theorem C4_failed_upload_not_retried_witness :
    Event.action (RemoteAction.overwrite "a.txt") false ∈
      (sync_files cacheW envFailAll).events ∧
    Snapshot.get (sync_files cacheW envFailAll).cache "a.txt" =
      some { name := "a.txt", hash := "h2", size := 3, modified := 20 } ∧
    actionsFor "a.txt"
      (diffActions (sync_files cacheW envFailAll).cache curW) = [] ∧
    Event.action (RemoteAction.upload "a.txt") false ∈
      (perform_initial_sync cacheW envFailAll).events ∧
    Snapshot.get (perform_initial_sync cacheW envFailAll).cache "a.txt" =
      some { name := "a.txt", hash := "h2", size := 3, modified := 20 } ∧
    actionsFor "a.txt"
      (diffActions (perform_initial_sync cacheW envFailAll).cache curW) = [] :=
  C4_failed_upload_not_retried cacheW curW curW envFailAll [] "a.txt"
    { name := "a.txt", hash := "h2", size := 3, modified := 20 }
    { name := "a.txt", hash := "h2", size := 3, modified := 20 }
    (RemoteAction.overwrite "a.txt")
    rfl rfl (by decide) (by decide) (by decide) (by decide) (by decide)
    (by decide) (by decide) (by decide)

/-- C6: per-file failures are isolated: when uploading new file `nA` fails
and new file `nB` succeeds in the same cycle, the new cache still carries
`nB`'s scanned state, both attempts appear in the log (the failure of `nA`
logged without aborting the rest), and no exception escapes the cycle
(the pass body returns normally). -/
theorem C6_partial_failure_isolation
    (cache current : Snapshot) (env : CycleEnv) (evs : List Event)
    (nA nB : String) (infoA infoB : FileInfo)
    (hscan : scan_local_folder env.listDir = Except.ok (current, evs))
    (hok : env.getInfoOk = true)
    (hndCache : (cache.map Prod.fst).Nodup)
    (hndCur : (current.map Prod.fst).Nodup)
    (hcA : Snapshot.get cache nA = none)
    (hsA : Snapshot.get current nA = some infoA)
    (hcB : Snapshot.get cache nB = none)
    (hsB : Snapshot.get current nB = some infoB)
    (hfA : env.opFails (RemoteAction.upload nA) = true)
    (hfB : env.opFails (RemoteAction.upload nB) = false) :
    Snapshot.get (sync_files cache env).cache nB = some infoB ∧
    Event.action (RemoteAction.upload nA) false ∈ (sync_files cache env).events ∧
    Event.action (RemoteAction.upload nB) true ∈ (sync_files cache env).events ∧
    ∃ r, sync_files_body cache env = Except.ok r := by
  refine ⟨?_, ?_, ?_, ?_⟩
  · have e1 : (sync_files cache env).cache = current := by
      rw [sync_files_ok cache current env evs hscan hok]
    rw [e1]
    exact hsB
  · have h := upload_event_mem cache current env evs nA infoA hscan hok
      hndCache hndCur hcA hsA
    rw [hfA] at h
    exact h
  · have h := upload_event_mem cache current env evs nB infoB hscan hok
      hndCache hndCur hcB hsB
    rw [hfB] at h
    exact h
  · refine ⟨(current, evs ++ runActions env.opFails (diffActions cache current)), ?_⟩
    unfold sync_files_body
    rw [hscan, hok]
    rfl

/-- Witness for C6 at the concrete data: under `envFailA` the upload of
new file `b.txt` succeeds while the overwrite target `a.txt` is not
involved; we use the empty cache so both `a.txt` and `b.txt` are new, the
upload of `a.txt` fails and that of `b.txt` succeeds. -/
theorem C6_partial_failure_isolation_witness :
    Snapshot.get (sync_files [] envFailA).cache "b.txt" =
      some { name := "b.txt", hash := "hb", size := 1, modified := 21 } ∧
    Event.action (RemoteAction.upload "a.txt") false ∈
      (sync_files [] envFailA).events ∧
    Event.action (RemoteAction.upload "b.txt") true ∈
      (sync_files [] envFailA).events ∧
    ∃ r, sync_files_body [] envFailA = Except.ok r :=
  C6_partial_failure_isolation [] curW envFailA [] "a.txt" "b.txt"
    { name := "a.txt", hash := "h2", size := 3, modified := 20 }
    { name := "b.txt", hash := "hb", size := 1, modified := 21 }
    rfl rfl (by decide) (by decide) (by decide) (by decide) (by decide)
    (by decide) (by decide) (by decide)

theorem deletedActions_empty (cache : Snapshot) :
    deletedActions cache [] = cache.map fun p => RemoteAction.delete p.1 := by
  unfold deletedActions
  induction cache with
  | nil => rfl
  | cons p rest ih =>
      rw [List.filterMap_cons, List.map_cons]
      simp only [Snapshot.get, reduceIte] at ih ⊢
      rw [ih]

/-- C7: when listing the watched directory raises `PermissionError`, the
scan returns the empty snapshot non-fatally with the error logged, and a
steady-state cycle in that situation issues exactly one delete per cached
file and replaces the cache with the empty snapshot. -/
theorem C7_scan_failure_mass_delete (cache : Snapshot) (env : CycleEnv)
    (hld : env.listDir = ListDir.permissionError)
    (hok : env.getInfoOk = true)
    (hnd : (cache.map Prod.fst).Nodup) :
    scan_local_folder env.listDir =
      Except.ok ([], [Event.scanPermissionLogged]) ∧
    (sync_files cache env).cache = [] ∧
    (sync_files cache env).events =
      Event.scanPermissionLogged ::
        runActions env.opFails (diffActions cache []) ∧
    diffActions cache [] = cache.map (fun p => RemoteAction.delete p.1) ∧
    (∀ n c, Snapshot.get cache n = some c →
      actionsFor n (diffActions cache []) = [RemoteAction.delete n]) := by
  have hscan : scan_local_folder env.listDir =
      Except.ok ([], [Event.scanPermissionLogged]) := by
    rw [hld]
    rfl
  have e1 := sync_files_ok cache [] env [Event.scanPermissionLogged] hscan hok
  refine ⟨hscan, ?_, ?_, ?_, ?_⟩
  · rw [e1]
  · rw [e1]
    rfl
  · unfold diffActions
    rw [deletedActions_empty]
    rfl
  · intro n c hc
    unfold diffActions
    rw [actionsFor_append, actionsFor_newAndChanged n cache [] (by simp),
      actionsFor_deleted n cache [] hnd, hc]
    rfl

/-- Witness for C7 at the concrete data: under `envPerm` the cycle deletes
each of the three cached files exactly once and empties the cache. -/
theorem C7_scan_failure_mass_delete_witness :
    scan_local_folder envPerm.listDir =
      Except.ok ([], [Event.scanPermissionLogged]) ∧
    (sync_files cacheW envPerm).cache = [] ∧
    (sync_files cacheW envPerm).events =
      Event.scanPermissionLogged ::
        runActions envPerm.opFails (diffActions cacheW []) ∧
    diffActions cacheW [] = cacheW.map (fun p => RemoteAction.delete p.1) ∧
    (∀ n c, Snapshot.get cacheW n = some c →
      actionsFor n (diffActions cacheW []) = [RemoteAction.delete n]) :=
  C7_scan_failure_mass_delete cacheW envPerm rfl rfl (by decide)

/-- C8: `YandexDiskStorage.delete` is idempotent at the engine boundary:
for every file name, when the DELETE request reports that the remote
object is absent (`_make_request` raises `FileNotFoundError`), `delete`
returns success (`True`) instead of raising. -/
theorem C8_delete_idempotent (filename : String) (req : ReqOutcome)
    (h : make_request req = Except.error ReqError.fileNotFoundError) :
    YandexDiskStorage.delete filename req = Except.ok true := by
  unfold YandexDiskStorage.delete
  rw [h]

/-- Witness for C8: an HTTP 404 on the DELETE request yields `True`. -/
theorem C8_delete_idempotent_witness :
    YandexDiskStorage.delete "a.txt" (ReqOutcome.http 404) = Except.ok true :=
  C8_delete_idempotent "a.txt" (ReqOutcome.http 404) rfl

/-- C9: in every steady-state cycle in which `get_info` raises, the whole
cycle is aborted without raising: no upload, overwrite or delete is
attempted and the cache is left unchanged (the diff never consults the
remote listing). -/
theorem C9_get_info_failure_aborts (cache : Snapshot) (env : CycleEnv)
    (hok : env.getInfoOk = false) :
    (sync_files cache env).cache = cache ∧
    issuedActions (sync_files cache env).events = [] := by
  cases hscan : scan_local_folder env.listDir with
  | error e =>
      cases e
      have e1 := sync_files_scanError cache env hscan
      rw [e1]
      exact ⟨rfl, rfl⟩
  | ok pr =>
      obtain ⟨snap, evs⟩ := pr
      have e1 := sync_files_getInfoFail cache env snap evs hscan hok
      rw [e1]
      refine ⟨rfl, ?_⟩
      show issuedActions (evs ++ [Event.cycleErrorLogged]) = []
      rw [issuedActions_append, scan_events_no_actions _ _ _ hscan]
      rfl

/-- Witness for C9: with `envInfoFail` (listing succeeds, `get_info`
raises) the cycle leaves the cache `cacheW` untouched and attempts no
action. -/
theorem C9_get_info_failure_aborts_witness :
    (sync_files cacheW envInfoFail).cache = cacheW ∧
    issuedActions (sync_files cacheW envInfoFail).events = [] :=
  C9_get_info_failure_aborts cacheW envInfoFail rfl

/-- C10: the scanner catches only `PermissionError`: any other OS error
while listing escapes `scan_local_folder` into the outer handler of
`sync_files` (the pass body errors with `scanOSError`), so that cycle
attempts no remote action and leaves the cache unchanged; the
empty-snapshot behavior arises only from the `PermissionError` case. -/
theorem C10_scanner_catches_only_permission (cache : Snapshot)
    (env : CycleEnv) (hld : env.listDir = ListDir.otherOSError) :
    scan_local_folder ListDir.otherOSError = Except.error () ∧
    scan_local_folder ListDir.permissionError =
      Except.ok ([], [Event.scanPermissionLogged]) ∧
    sync_files_body cache env = Except.error (SyncErr.scanOSError, []) ∧
    (sync_files cache env).cache = cache ∧
    issuedActions (sync_files cache env).events = [] := by
  have hscan : scan_local_folder env.listDir = Except.error () := by
    rw [hld]
    rfl
  have e1 := sync_files_scanError cache env hscan
  refine ⟨rfl, rfl, ?_, ?_, ?_⟩
  · unfold sync_files_body
    rw [hscan]
  · rw [e1]
  · rw [e1]
    rfl

/-- Witness for C10: with `envOSErr` (listing hits a non-permission OS
error) the cycle attempts nothing and keeps `cacheW`. -/
theorem C10_scanner_catches_only_permission_witness :
    scan_local_folder ListDir.otherOSError = Except.error () ∧
    scan_local_folder ListDir.permissionError =
      Except.ok ([], [Event.scanPermissionLogged]) ∧
    sync_files_body cacheW envOSErr = Except.error (SyncErr.scanOSError, []) ∧
    (sync_files cacheW envOSErr).cache = cacheW ∧
    issuedActions (sync_files cacheW envOSErr).events = [] :=
  C10_scanner_catches_only_permission cacheW envOSErr rfl

/-- C3 counterexample: an unexpected error during a sync pass (here
`get_info` raising `RuntimeError`, modelled by `envInfoFail`) escapes the
pass body, but `sync_files` returns normally having only logged it — it is
not re-raised, and the run loop continues: the following cycle (scanning a
directory holding only `b.txt`) still uploads `b.txt` and deletes
`a.txt`, contradicting "re-raised so that the process terminates, rather
than the run loop continuing with the next cycle". -/
theorem C3_counterexample :
    sync_files_body cacheA envInfoFail =
      Except.error (SyncErr.getInfoError, []) ∧
    sync_files cacheA envInfoFail =
      ⟨cacheA, [Event.cycleErrorLogged]⟩ ∧
    (runCycles cacheA [envInfoFail, envOnlyB]).2 =
      [[Event.cycleErrorLogged],
       [Event.action (RemoteAction.upload "b.txt") true,
        Event.action (RemoteAction.delete "a.txt") true]] ∧
    (runCycles cacheA [envInfoFail, envOnlyB]).1 =
      [("b.txt", { name := "b.txt", hash := "hb", size := 1,
                   modified := 21 })] := by
  refine ⟨rfl, ?_, ?_, ?_⟩ <;> decide

/-- C3 amended: any exception escaping the body of a sync pass is caught
by the pass's own catch-all handler, logged, and swallowed — it does not
propagate, the cache is left unchanged, and the run loop continues with
the remaining cycles exactly as it would from the same cache; only
exceptions raised outside the sync passes reach the log-and-re-raise
handler of `run`. -/
theorem C3_amended_unexpected_error_swallowed (cache : Snapshot)
    (env : CycleEnv) (rest : List CycleEnv) (e : SyncErr)
    (evs : List Event)
    (hbody : sync_files_body cache env = Except.error (e, evs)) :
    sync_files cache env = ⟨cache, evs ++ [Event.cycleErrorLogged]⟩ ∧
    (runCycles cache (env :: rest)).2 =
      (evs ++ [Event.cycleErrorLogged]) :: (runCycles cache rest).2 ∧
    (runCycles cache (env :: rest)).1 = (runCycles cache rest).1 := by
  have e1 : sync_files cache env = ⟨cache, evs ++ [Event.cycleErrorLogged]⟩ := by
    unfold sync_files
    rw [hbody]
  refine ⟨e1, ?_, ?_⟩
  · rw [runCycles_cons, e1]
  · rw [runCycles_cons, e1]

/-- Witness for the amended C3 at the concrete data. -/
theorem C3_amended_unexpected_error_swallowed_witness :
    sync_files cacheA envInfoFail =
      ⟨cacheA, [] ++ [Event.cycleErrorLogged]⟩ ∧
    (runCycles cacheA (envInfoFail :: [envOnlyB])).2 =
      ([] ++ [Event.cycleErrorLogged]) :: (runCycles cacheA [envOnlyB]).2 ∧
    (runCycles cacheA (envInfoFail :: [envOnlyB])).1 =
      (runCycles cacheA [envOnlyB]).1 :=
  C3_amended_unexpected_error_swallowed cacheA envInfoFail [envOnlyB]
    SyncErr.getInfoError [] rfl
